import Mathlib

/-!
Verification development for the CTFd LMS attribute-policy module
(CTFd/utils/lms.py).

The module has two parts:

* a safe boolean expression evaluator (eval_attr_logic together with
  SafeEvalVisitor and SafeAttrs), which parses a policy expression with
  the host parser (ast.parse, mode eval), validates every node of the
  tree against an allow-list, and evaluates the tree with the host
  evaluator using empty builtins and an attribute dictionary whose
  missing keys resolve to None;

* an attribute-provider fetch (get_lms_ctfd_data_for_email) that reads
  configuration from the environment, performs an HTTP GET and
  normalizes the JSON payload.

The embedding below models Python values as a closed tagged union,
the relevant fragment of the Python expression AST (including
representative disallowed constructs), the validator visit pass, and
the host evaluation of a compiled expression tree.  The host parser
itself (ast.parse) is not part of the repository; it is treated as an
oracle: the public entry point receives the parse result as an
explicit Option argument (Option.none when ast.parse raises).
-/

namespace LMS

/-! ## Python values

A closed model of the Python values a policy can produce: None, bool,
int, str, and the three literal collection types allowed by the
validator.  Floats are not modelled; no claim exercises them. -/

inductive Value where
  | none
  | bool (b : Bool)
  | int (n : Int)
  | str (s : String)
  | list (xs : List Value)
  | tuple (xs : List Value)
  | dict (entries : List (Value × Value))

/-- Python type name of a value, as used in host error messages. -/
def typeName : Value → String
  | Value.none => "NoneType"
  | Value.bool _ => "bool"
  | Value.int _ => "int"
  | Value.str _ => "str"
  | Value.list _ => "list"
  | Value.tuple _ => "tuple"
  | Value.dict _ => "dict"

/-- Numeric view: Python treats bool as an int subtype, so True == 1
and False == 0, and bools participate in ordering as 1 and 0. -/
def asNum : Value → Option Int
  | Value.int n => some n
  | Value.bool b => some (if b then 1 else 0)
  | _ => Option.none

/-! Python equality (the == operator) for the modelled values.  It is
total: comparing values of unrelated types yields False rather than an
error.  Dict equality ignores entry order, matching the host. -/

mutual

def pyEq : Value → Value → Bool
  | Value.none, Value.none => true
  | Value.bool a, Value.bool b => a == b
  | Value.bool a, Value.int n => (if a then (1 : Int) else 0) == n
  | Value.int n, Value.bool b => n == (if b then (1 : Int) else 0)
  | Value.int a, Value.int b => a == b
  | Value.str a, Value.str b => a == b
  | Value.list xs, Value.list ys => pyEqList xs ys
  | Value.tuple xs, Value.tuple ys => pyEqList xs ys
  | Value.dict es, Value.dict fs =>
      es.length == fs.length && pyEqDictSub es fs
  | _, _ => false

def pyEqList : List Value → List Value → Bool
  | [], [] => true
  | x :: xs, y :: ys => pyEq x y && pyEqList xs ys
  | _, _ => false

def pyEqDictSub : List (Value × Value) → List (Value × Value) → Bool
  | [], _ => true
  | (k, v) :: rest, fs => pyDictMem k v fs && pyEqDictSub rest fs

def pyDictMem : Value → Value → List (Value × Value) → Bool
  | _, _, [] => false
  | k, v, (k2, v2) :: rest => (pyEq k k2 && pyEq v v2) || pyDictMem k v rest

end

/-! Python ordering (the <, <=, >, >= operators), three-way.  Partial:
values the host cannot order (for example int against str, or anything
against None) raise a TypeError, modelled as Except.error. -/

mutual

def cmpVal : Value → Value → Except String Ordering
  | Value.int a, Value.int b => Except.ok (compare a b)
  | Value.int a, Value.bool b => Except.ok (compare a (if b then 1 else 0))
  | Value.bool a, Value.int b => Except.ok (compare (if a then (1 : Int) else 0) b)
  | Value.bool a, Value.bool b =>
      Except.ok (compare (if a then (1 : Int) else 0) (if b then 1 else 0))
  | Value.str a, Value.str b => Except.ok (compare a b)
  | Value.list xs, Value.list ys => cmpList xs ys
  | Value.tuple xs, Value.tuple ys => cmpList xs ys
  | a, b =>
      Except.error ("ordering not supported between instances of " ++
        typeName a ++ " and " ++ typeName b)

def cmpList : List Value → List Value → Except String Ordering
  | [], [] => Except.ok Ordering.eq
  | [], _ :: _ => Except.ok Ordering.lt
  | _ :: _, [] => Except.ok Ordering.gt
  | x :: xs, y :: ys => if pyEq x y then cmpList xs ys else cmpVal x y

end

/-- Python truthiness, bool(v): None, False, zero, the empty string and
empty collections are falsy; everything else is truthy. -/
def truthy : Value → Bool
  | Value.none => false
  | Value.bool b => b
  | Value.int n => n != 0
  | Value.str s => s != ""
  | Value.list xs => !xs.isEmpty
  | Value.tuple xs => !xs.isEmpty
  | Value.dict es => !es.isEmpty

/-- Substring search on character lists (Python sub in s). -/
def subSearch (t : List Char) : List Char → Bool
  | [] => t.isEmpty
  | c :: rest => List.isPrefixOf t (c :: rest) || subSearch t rest

def strContains (s sub : String) : Bool :=
  subSearch sub.toList s.toList

/-! Values usable as dict keys: Python hashability (lists and dicts
are unhashable; a tuple is hashable when its elements are). -/

mutual

def hashable : Value → Bool
  | Value.list _ => false
  | Value.dict _ => false
  | Value.tuple xs => hashableList xs
  | _ => true

def hashableList : List Value → Bool
  | [] => true
  | x :: xs => hashable x && hashableList xs

end

/-- Python membership x in coll.  Lists and tuples test element
presence with ==; a dict hashes the left operand first (TypeError for
an unhashable operand) and then tests key presence with ==; strings
test substring containment and require a string left operand; every
other right operand raises a TypeError, modelled as Except.error. -/
def pyIn (x : Value) : Value → Except String Bool
  | Value.list ys => Except.ok (ys.any (fun y => pyEq x y))
  | Value.tuple ys => Except.ok (ys.any (fun y => pyEq x y))
  | Value.dict es =>
      if hashable x then Except.ok (es.any (fun kv => pyEq kv.1 x))
      else Except.error ("unhashable type: " ++ typeName x)
  | Value.str s =>
      match x with
      | Value.str sub => Except.ok (strContains s sub)
      | v => Except.error ("in string requires string as left operand, not " ++ typeName v)
  | v => Except.error ("argument of type " ++ typeName v ++ " is not iterable")

/-! ## Attribute mappings

Python dicts of attribute values, modelled as association lists in
insertion order with first-match lookup.  SafeAttrs is a dict subclass
whose missing-key lookup returns None instead of raising. -/

abbrev AttrMap := List (String × Value)

def attrFind : AttrMap → String → Option Value
  | [], _ => Option.none
  | (k, v) :: rest, x => if x == k then some v else attrFind rest x

/-- Name lookup through SafeAttrs(attributes): dict lookup whose
missing hook (SafeAttrs.__missing__) returns None. -/
def safeLookup (m : AttrMap) (x : String) : Value :=
  match attrFind m x with
  | some v => v
  | Option.none => Value.none

/-- SafeEvalVisitor.visit_Name on the working copy: insert the name
with value None when it is absent (Python dict insertion appends in
insertion order); leave the mapping unchanged when it is present. -/
def addMissing (m : AttrMap) (x : String) : AttrMap :=
  match attrFind m x with
  | some _ => m
  | Option.none => m ++ [(x, Value.none)]

/-! ## The expression AST

The fragment of the Python ast module that the claims exercise.  The
operator classes (ast.And, ast.Add, ast.Eq, ...) are AST nodes of
their own in Python and are visited by NodeVisitor.generic_visit; they
are modelled as enumerations whose allow-list status the visit pass
checks at the operator position.  Call and Attribute stand for the
expression node classes absent from ALLOWED_NODES. -/

inductive BoolOpKind where
  | and_
  | or_

inductive BinOpKind where
  | add
  | sub
  | mult
  | div
  | mod
  | pow

inductive UnaryOpKind where
  | not_
  | uSub
  | uAdd
  | invert

inductive CmpOpKind where
  | eq
  | notEq
  | lt
  | ltE
  | gt
  | gtE
  | in_
  | notIn
  | is_
  | isNot

inductive PyConst where
  | none
  | bool (b : Bool)
  | int (n : Int)
  | str (s : String)

inductive PyExpr where
  | boolOp (op : BoolOpKind) (values : List PyExpr)
  | binOp (left : PyExpr) (op : BinOpKind) (right : PyExpr)
  | unaryOp (op : UnaryOpKind) (operand : PyExpr)
  | compare (left : PyExpr) (rest : List (CmpOpKind × PyExpr))
  | name (id : String)
  | const (c : PyConst)
  | subscript (value index : PyExpr)
  | listE (elts : List PyExpr)
  | tupleE (elts : List PyExpr)
  | dictE (entries : List (PyExpr × PyExpr))
  | call (func : PyExpr) (args : List PyExpr)
  | attributeE (value : PyExpr) (attr : String)

def binOpName : BinOpKind → String
  | BinOpKind.add => "Add"
  | BinOpKind.sub => "Sub"
  | BinOpKind.mult => "Mult"
  | BinOpKind.div => "Div"
  | BinOpKind.mod => "Mod"
  | BinOpKind.pow => "Pow"

def unaryOpName : UnaryOpKind → String
  | UnaryOpKind.not_ => "Not"
  | UnaryOpKind.uSub => "USub"
  | UnaryOpKind.uAdd => "UAdd"
  | UnaryOpKind.invert => "Invert"

def cmpOpName : CmpOpKind → String
  | CmpOpKind.eq => "Eq"
  | CmpOpKind.notEq => "NotEq"
  | CmpOpKind.lt => "Lt"
  | CmpOpKind.ltE => "LtE"
  | CmpOpKind.gt => "Gt"
  | CmpOpKind.gtE => "GtE"
  | CmpOpKind.in_ => "In"
  | CmpOpKind.notIn => "NotIn"
  | CmpOpKind.is_ => "Is"
  | CmpOpKind.isNot => "IsNot"

/-- Which comparison operator nodes appear in
SafeEvalVisitor.ALLOWED_NODES (Eq, NotEq, In, NotIn, Gt, GtE, Lt,
LtE); Is and IsNot do not. -/
def cmpOpAllowed : CmpOpKind → Bool
  | CmpOpKind.is_ => false
  | CmpOpKind.isNot => false
  | _ => true

/-- Which unary operator nodes appear in ALLOWED_NODES (only Not). -/
def unaryOpAllowed : UnaryOpKind → Bool
  | UnaryOpKind.not_ => true
  | _ => false

/-- The four ordering comparison operators (Lt, LtE, Gt, GtE). -/
def ordOp : CmpOpKind → Bool
  | CmpOpKind.lt => true
  | CmpOpKind.ltE => true
  | CmpOpKind.gt => true
  | CmpOpKind.gtE => true
  | _ => false

/-! ## The allow-list visit pass (SafeEvalVisitor)

SafeEvalVisitor(attributes.copy()).visit(tree): a single top-down pass
that raises ValueError at the first node whose class is not in
ALLOWED_NODES, and on every Name node inserts the missing name into
the working copy with value None (visit_Name, which does not recurse
into the Name node).  The pass threads the working copy and returns it
on success.  BinOp is itself in ALLOWED_NODES, but none of the
arithmetic operator nodes are, so every BinOp fails at its operator
child (after its left child has been visited, matching the field
order left, op, right of generic_visit).  For Compare and Dict the
Python pass visits all operators (resp. keys) before all comparators
(resp. values); the interleaved order used here yields the same
result and differs only in which error message is produced, which the
caller discards. -/

mutual

def visit (m : AttrMap) : PyExpr → Except String AttrMap
  | PyExpr.name x => Except.ok (addMissing m x)
  | PyExpr.boolOp _ vs => visitList m vs
  | PyExpr.binOp l op _ =>
      match visit m l with
      | Except.error s => Except.error s
      | Except.ok _ => Except.error ("Disallowed expression: " ++ binOpName op)
  | PyExpr.unaryOp op e =>
      if unaryOpAllowed op then visit m e
      else Except.error ("Disallowed expression: " ++ unaryOpName op)
  | PyExpr.compare l rest =>
      match visit m l with
      | Except.error s => Except.error s
      | Except.ok m1 => visitCmp m1 rest
  | PyExpr.const _ => Except.ok m
  | PyExpr.subscript v i =>
      match visit m v with
      | Except.error s => Except.error s
      | Except.ok m1 => visit m1 i
  | PyExpr.listE es => visitList m es
  | PyExpr.tupleE es => visitList m es
  | PyExpr.dictE ps => visitPairs m ps
  | PyExpr.call _ _ => Except.error "Disallowed expression: Call"
  | PyExpr.attributeE _ _ => Except.error "Disallowed expression: Attribute"

def visitList (m : AttrMap) : List PyExpr → Except String AttrMap
  | [] => Except.ok m
  | e :: rest =>
      match visit m e with
      | Except.error s => Except.error s
      | Except.ok m1 => visitList m1 rest

def visitCmp (m : AttrMap) : List (CmpOpKind × PyExpr) → Except String AttrMap
  | [] => Except.ok m
  | (op, e) :: rest =>
      if cmpOpAllowed op then
        match visit m e with
        | Except.error s => Except.error s
        | Except.ok m1 => visitCmp m1 rest
      else Except.error ("Disallowed expression: " ++ cmpOpName op)

def visitPairs (m : AttrMap) : List (PyExpr × PyExpr) → Except String AttrMap
  | [] => Except.ok m
  | (k, v) :: rest =>
      match visit m k with
      | Except.error s => Except.error s
      | Except.ok m1 =>
        match visit m1 v with
        | Except.error s => Except.error s
        | Except.ok m2 => visitPairs m2 rest

end

/-! Syntactic scan: does the tree contain a node whose class is
outside ALLOWED_NODES?  A BinOp subtree always does, because its
operator child is such a node. -/

mutual

def hasBad : PyExpr → Bool
  | PyExpr.boolOp _ vs => hasBadList vs
  | PyExpr.binOp _ _ _ => true
  | PyExpr.unaryOp op e => !unaryOpAllowed op || hasBad e
  | PyExpr.compare l rest => hasBad l || hasBadCmp rest
  | PyExpr.name _ => false
  | PyExpr.const _ => false
  | PyExpr.subscript v i => hasBad v || hasBad i
  | PyExpr.listE es => hasBadList es
  | PyExpr.tupleE es => hasBadList es
  | PyExpr.dictE ps => hasBadPairs ps
  | PyExpr.call _ _ => true
  | PyExpr.attributeE _ _ => true

def hasBadList : List PyExpr → Bool
  | [] => false
  | e :: rest => hasBad e || hasBadList rest

def hasBadCmp : List (CmpOpKind × PyExpr) → Bool
  | [] => false
  | (op, e) :: rest => !cmpOpAllowed op || hasBad e || hasBadCmp rest

def hasBadPairs : List (PyExpr × PyExpr) → Bool
  | [] => false
  | (k, v) :: rest => hasBad k || hasBad v || hasBadPairs rest

end

/-! ## Host evaluation of the compiled tree

eval(compiled, globals with empty builtins, SafeAttrs(attributes)):
names are resolved only through the SafeAttrs mapping (safeLookup);
the empty builtins table means no host builtin is ever consulted.
Runtime faults (TypeError and friends) are modelled as Except.error.
The arithmetic, identity and call cases below are unreachable through
eval_attr_logic, because the visit pass rejects their nodes; they are
included so the evaluator is total on the AST. -/

def constVal : PyConst → Value
  | PyConst.none => Value.none
  | PyConst.bool b => Value.bool b
  | PyConst.int n => Value.int n
  | PyConst.str s => Value.str s

/-- Binary arithmetic (unreachable through eval_attr_logic: every
arithmetic operator node is rejected by the visit pass). -/
def evalBin : BinOpKind → Value → Value → Except String Value
  | BinOpKind.add, Value.int a, Value.int b => Except.ok (Value.int (a + b))
  | BinOpKind.add, Value.str a, Value.str b => Except.ok (Value.str (a ++ b))
  | BinOpKind.add, Value.list a, Value.list b => Except.ok (Value.list (a ++ b))
  | BinOpKind.sub, Value.int a, Value.int b => Except.ok (Value.int (a - b))
  | BinOpKind.mult, Value.int a, Value.int b => Except.ok (Value.int (a * b))
  | op, a, b =>
      Except.error ("unsupported operand type(s) for " ++ binOpName op ++
        ": " ++ typeName a ++ " and " ++ typeName b)

def evalUnary : UnaryOpKind → Value → Except String Value
  | UnaryOpKind.not_, v => Except.ok (Value.bool (!truthy v))
  | UnaryOpKind.uSub, Value.int n => Except.ok (Value.int (-n))
  | UnaryOpKind.uAdd, Value.int n => Except.ok (Value.int n)
  | UnaryOpKind.invert, Value.int n => Except.ok (Value.int (-(n + 1)))
  | op, v =>
      Except.error ("bad operand type for unary " ++ unaryOpName op ++
        ": " ++ typeName v)

/-- One comparison operator applied to two evaluated operands.
Equality is total; ordering and membership can raise.  Is and IsNot
are rejected by the visit pass and never reach evaluation. -/
def applyCmp : CmpOpKind → Value → Value → Except String Bool
  | CmpOpKind.eq, a, b => Except.ok (pyEq a b)
  | CmpOpKind.notEq, a, b => Except.ok (!pyEq a b)
  | CmpOpKind.lt, a, b =>
      match cmpVal a b with
      | Except.error s => Except.error s
      | Except.ok o => Except.ok (o == Ordering.lt)
  | CmpOpKind.ltE, a, b =>
      match cmpVal a b with
      | Except.error s => Except.error s
      | Except.ok o => Except.ok (o != Ordering.gt)
  | CmpOpKind.gt, a, b =>
      match cmpVal a b with
      | Except.error s => Except.error s
      | Except.ok o => Except.ok (o == Ordering.gt)
  | CmpOpKind.gtE, a, b =>
      match cmpVal a b with
      | Except.error s => Except.error s
      | Except.ok o => Except.ok (o != Ordering.lt)
  | CmpOpKind.in_, a, b => pyIn a b
  | CmpOpKind.notIn, a, b =>
      match pyIn a b with
      | Except.error s => Except.error s
      | Except.ok r => Except.ok (!r)
  | CmpOpKind.is_, _, _ => Except.error "identity comparison not modelled"
  | CmpOpKind.isNot, _, _ => Except.error "identity comparison not modelled"

/-- First entry with a key equal (==) to k, in insertion order. -/
def dictFind : List (Value × Value) → Value → Option Value
  | [], _ => Option.none
  | (k0, v0) :: rest, k => if pyEq k0 k then some v0 else dictFind rest k

/-- Dict insertion: an existing key keeps its position and gets the
new value; a new key is appended. -/
def dictInsertEntry : List (Value × Value) → Value → Value → List (Value × Value)
  | [], k, v => [(k, v)]
  | (k0, v0) :: rest, k, v =>
      if pyEq k0 k then (k0, v) :: rest else (k0, v0) :: dictInsertEntry rest k v

/-- Build a dict from evaluated key-value pairs, left to right, as
BUILD_MAP does, raising at the first unhashable key. -/
def buildDict (acc : List (Value × Value)) :
    List (Value × Value) → Except String (List (Value × Value))
  | [] => Except.ok acc
  | (k, v) :: rest =>
      if hashable k then buildDict (dictInsertEntry acc k v) rest
      else Except.error "unhashable type"

/-- Subscript a[b]: sequence indexing with negative-index wraparound,
string indexing, and dict key lookup; everything else raises. -/
def listAt (xs : List Value) (n : Int) : Except String Value :=
  let i := if n < 0 then n + xs.length else n
  if i < 0 then Except.error "index out of range"
  else
    match xs.get? i.toNat with
    | some v => Except.ok v
    | Option.none => Except.error "index out of range"

def pyIndex : Value → Value → Except String Value
  | Value.list xs, b =>
      match asNum b with
      | some n => listAt xs n
      | Option.none => Except.error "list indices must be integers"
  | Value.tuple xs, b =>
      match asNum b with
      | some n => listAt xs n
      | Option.none => Except.error "tuple indices must be integers"
  | Value.str s, b =>
      match asNum b with
      | some n =>
        match listAt (s.toList.map (fun c => Value.str (String.singleton c))) n with
        | Except.ok v => Except.ok v
        | Except.error _ => Except.error "string index out of range"
      | Option.none => Except.error "string indices must be integers"
  | Value.dict es, b =>
      if hashable b then
        match dictFind es b with
        | some v => Except.ok v
        | Option.none => Except.error "KeyError"
      else Except.error "unhashable type"
  | v, _ => Except.error (typeName v ++ " object is not subscriptable")

mutual

def evalExpr (m : AttrMap) : PyExpr → Except String Value
  | PyExpr.boolOp BoolOpKind.and_ vs => evalAndChain m vs
  | PyExpr.boolOp BoolOpKind.or_ vs => evalOrChain m vs
  | PyExpr.binOp l op r =>
      match evalExpr m l with
      | Except.error s => Except.error s
      | Except.ok a =>
        match evalExpr m r with
        | Except.error s => Except.error s
        | Except.ok b => evalBin op a b
  | PyExpr.unaryOp op e =>
      match evalExpr m e with
      | Except.error s => Except.error s
      | Except.ok v => evalUnary op v
  | PyExpr.compare l rest =>
      match evalExpr m l with
      | Except.error s => Except.error s
      | Except.ok v => evalCmpChain m v rest
  | PyExpr.name x => Except.ok (safeLookup m x)
  | PyExpr.const c => Except.ok (constVal c)
  | PyExpr.subscript v i =>
      match evalExpr m v with
      | Except.error s => Except.error s
      | Except.ok a =>
        match evalExpr m i with
        | Except.error s => Except.error s
        | Except.ok b => pyIndex a b
  | PyExpr.listE es =>
      match evalList m es with
      | Except.error s => Except.error s
      | Except.ok vs => Except.ok (Value.list vs)
  | PyExpr.tupleE es =>
      match evalList m es with
      | Except.error s => Except.error s
      | Except.ok vs => Except.ok (Value.tuple vs)
  | PyExpr.dictE ps =>
      match evalPairs m ps with
      | Except.error s => Except.error s
      | Except.ok kvs =>
        match buildDict [] kvs with
        | Except.error s => Except.error s
        | Except.ok es => Except.ok (Value.dict es)
  | PyExpr.call _ _ => Except.error "call not supported"
  | PyExpr.attributeE _ _ => Except.error "attribute access not supported"

/-- Python and-chain: return the first falsy operand, else the last
operand; operands past the first falsy one are not evaluated. -/
def evalAndChain (m : AttrMap) : List PyExpr → Except String Value
  | [] => Except.ok Value.none
  | [e] => evalExpr m e
  | e :: rest =>
      match evalExpr m e with
      | Except.error s => Except.error s
      | Except.ok v => if truthy v then evalAndChain m rest else Except.ok v

/-- Python or-chain: return the first truthy operand, else the last. -/
def evalOrChain (m : AttrMap) : List PyExpr → Except String Value
  | [] => Except.ok Value.none
  | [e] => evalExpr m e
  | e :: rest =>
      match evalExpr m e with
      | Except.error s => Except.error s
      | Except.ok v => if truthy v then Except.ok v else evalOrChain m rest

/-- Python comparison chain a op1 b op2 c ...: short-circuits at the
first failing comparison; later comparators are not evaluated. -/
def evalCmpChain (m : AttrMap) (acc : Value) :
    List (CmpOpKind × PyExpr) → Except String Value
  | [] => Except.ok (Value.bool true)
  | (op, e) :: rest =>
      match evalExpr m e with
      | Except.error s => Except.error s
      | Except.ok b =>
        match applyCmp op acc b with
        | Except.error s => Except.error s
        | Except.ok r =>
          if r then evalCmpChain m b rest else Except.ok (Value.bool false)

def evalList (m : AttrMap) : List PyExpr → Except String (List Value)
  | [] => Except.ok []
  | e :: rest =>
      match evalExpr m e with
      | Except.error s => Except.error s
      | Except.ok v =>
        match evalList m rest with
        | Except.error s => Except.error s
        | Except.ok vs => Except.ok (v :: vs)

def evalPairs (m : AttrMap) : List (PyExpr × PyExpr) → Except String (List (Value × Value))
  | [] => Except.ok []
  | (k, v) :: rest =>
      match evalExpr m k with
      | Except.error s => Except.error s
      | Except.ok kv =>
        match evalExpr m v with
        | Except.error s => Except.error s
        | Except.ok vv =>
          match evalPairs m rest with
          | Except.error s => Except.error s
          | Except.ok kvs => Except.ok ((kv, vv) :: kvs)

end

/-! ## The public entry point (eval_attr_logic)

The guard `not expression or not expression.strip()` is true exactly
when the string consists only of characters Python str.strip removes,
i.e. characters for which str.isspace holds. -/

/-- Code points of the characters Python str.strip removes. -/
def pySpaceCodes : List Nat :=
  [9, 10, 11, 12, 13, 28, 29, 30, 31, 32, 133, 160, 5760,
   8192, 8193, 8194, 8195, 8196, 8197, 8198, 8199, 8200, 8201, 8202,
   8232, 8233, 8239, 8287, 12288]

def isPySpace (c : Char) : Bool :=
  pySpaceCodes.contains c.toNat

/-- True when the expression is empty or whitespace-only, i.e. when
`not expression or not expression.strip()` holds. -/
def isBlank (s : String) : Bool :=
  s.toList.all isPySpace

/-- eval_attr_logic(expression, attributes).  The host parser is an
oracle: `parsed` is the result of ast.parse(expression, mode eval)
stripped of its Expression root (which is in ALLOWED_NODES), and is
Option.none when parsing raised.  The visit pass runs on
attributes.copy(), which shares no state with the mapping used for
evaluation; evaluation runs on SafeAttrs(attributes), a fresh dict
with the same entries as the caller's.  compile() on an already
parsed eval-mode tree cannot fail and is modelled as the identity.
The except-clause of the source catches every exception from parsing,
validation and evaluation and returns False. -/
def eval_attr_logic (expression : String) (parsed : Option PyExpr)
    (attributes : AttrMap) : Bool :=
  if isBlank expression then
    true
  else
    match parsed with
    | Option.none => false
    | some tree =>
      match visit attributes tree with
      | Except.error _ => false
      | Except.ok _ =>
        match evalExpr attributes tree with
        | Except.error _ => false
        | Except.ok v => truthy v

/-- State-passing variant that makes the heap discipline of the source
explicit: the second component is the caller's attribute dict after
the call.  The visit pass writes only to attributes.copy() (whose
final state is discarded), and evaluation reads SafeAttrs(attributes),
a fresh dict; the caller's dict is returned untouched on every path. -/
def eval_attr_logic_heap (expression : String) (parsed : Option PyExpr)
    (attributes : AttrMap) : Bool × AttrMap :=
  if isBlank expression then
    (true, attributes)
  else
    match parsed with
    | Option.none => (false, attributes)
    | some tree =>
      match visit attributes tree with
      | Except.error _ => (false, attributes)
      | Except.ok _ =>
        match evalExpr attributes tree with
        | Except.error _ => (false, attributes)
        | Except.ok v => (truthy v, attributes)

/-! ## The attribute provider (get_lms_ctfd_data_for_email)

Environment configuration, the HTTP GET and JSON decoding are host
I/O; they are modelled as an explicit world value.  URL construction
(rstrip of the base, percent-quoting of the email) affects only which
request the host performs and is absorbed into the world's request
outcome.  The memoization decorator caches results for five seconds
and does not change the value computed. -/

inductive JVal where
  | null
  | bool (b : Bool)
  | num (n : Int)
  | str (s : String)
  | arr (xs : List JVal)
  | obj (fields : List (String × JVal))

/-- Python truthiness of a decoded JSON value, as used by the
normalization `data.get(...) or default`. -/
def jTruthy : JVal → Bool
  | JVal.null => false
  | JVal.bool b => b
  | JVal.num n => n != 0
  | JVal.str s => s != ""
  | JVal.arr xs => !xs.isEmpty
  | JVal.obj fs => !fs.isEmpty

def isObj : JVal → Bool
  | JVal.obj _ => true
  | _ => false

def isArr : JVal → Bool
  | JVal.arr _ => true
  | _ => false

def jLookup : List (String × JVal) → String → Option JVal
  | [], _ => Option.none
  | (k, v) :: rest, x => if x == k then some v else jLookup rest x

/-- The normalization `data.get(k) or dflt` applied to an object body:
a missing key reads as null, and a falsy value is replaced by the
default. -/
def normField (fs : List (String × JVal)) (k : String) (dflt : JVal) : JVal :=
  let v0 := (jLookup fs k).getD JVal.null
  if jTruthy v0 then v0 else dflt

/-- How a call of the function can fail: LMSUnavailable raised by the
function itself, or a host exception it does not catch (the
AttributeError from calling .get on a non-dict JSON body). -/
inductive LMSErr where
  | unavailable (msg : String)
  | hostError (msg : String)

structure HTTPResp where
  status_code : Nat
  /-- resp.json(): Option.none when decoding raises. -/
  body : Option JVal

/-- The host state the function consults: the two environment
variables and the outcome of requests.get (Except.error is a raised
RequestException, carrying str(e)). -/
structure LMSWorld where
  lms_base_url : Option String
  lms_ctfd_token : Option String
  httpResult : Except String HTTPResp

/-- The normalized return value. -/
structure CtfdData where
  attributes : JVal
  active_attempt_task_ids : JVal

/-- Python `not s` for an optional environment string: true for an
unset variable and for the empty string. -/
def optFalsy : Option String → Bool
  | Option.none => true
  | some s => s == ""

/-- data.get(key): None default on a dict body; AttributeError (not
caught by the source) on any other decoded body. -/
def jGet (d : JVal) (k : String) : Except LMSErr JVal :=
  match d with
  | JVal.obj fs =>
      match jLookup fs k with
      | some v => Except.ok v
      | Option.none => Except.ok JVal.null
  | _ => Except.error (LMSErr.hostError "AttributeError: no attribute get")

/-- get_lms_ctfd_data_for_email(email), over an explicit world. -/
def get_lms_ctfd_data_for_email (email : String) (w : LMSWorld) :
    Except LMSErr CtfdData :=
  let _ := email
  if optFalsy w.lms_base_url || optFalsy w.lms_ctfd_token then
    Except.error (LMSErr.unavailable "LMS is not configured (LMS_BASE_URL/LMS_CTFD_TOKEN)")
  else
    match w.httpResult with
    | Except.error e => Except.error (LMSErr.unavailable e)
    | Except.ok resp =>
      if resp.status_code != 200 then
        Except.error (LMSErr.unavailable ("LMS returned " ++ toString resp.status_code))
      else
        match resp.body with
        | Option.none => Except.error (LMSErr.unavailable "Invalid LMS JSON")
        | some data =>
          match jGet data "attributes" with
          | Except.error e => Except.error e
          | Except.ok attr0 =>
            let attr := if jTruthy attr0 then attr0 else JVal.obj []
            match jGet data "active_attempt_task_ids" with
            | Except.error e => Except.error e
            | Except.ok task0 =>
              let task_ids := if jTruthy task0 then task0 else JVal.arr []
              if !isObj attr || !isArr task_ids then
                Except.error (LMSErr.unavailable "Invalid LMS payload structure")
              else
                Except.ok { attributes := attr, active_attempt_task_ids := task_ids }

/-! ## Helper lemmas -/

theorem attrFind_append_some :
    ∀ (m : AttrMap) (ext : AttrMap) (k : String) (v : Value),
      attrFind m k = some v → attrFind (m ++ ext) k = some v
  | [], _, _, _, h => by simp [attrFind] at h
  | (k0, v0) :: rest, ext, k, v, h => by
      simp only [attrFind] at h ⊢
      by_cases hk : (k == k0) = true
      · simpa [hk] using h
      · simp only [hk, if_neg] at h ⊢
        simp only [Bool.false_eq_true, if_false] at h ⊢
        exact attrFind_append_some rest ext k v h

theorem addMissing_extends (m : AttrMap) (x : String) :
    ∃ ext, addMissing m x = m ++ ext := by
  unfold addMissing
  cases attrFind m x with
  | none => exact ⟨[(x, Value.none)], rfl⟩
  | some v => exact ⟨[], by simp⟩

/-! The visit pass only ever extends the working copy: every map it
returns is the input map with some entries appended. -/

mutual

theorem visit_extends :
    ∀ (t : PyExpr) (m m' : AttrMap), visit m t = Except.ok m' → ∃ ext, m' = m ++ ext
  | PyExpr.name x, m, m', h => by
      simp only [visit, Except.ok.injEq] at h
      obtain ⟨ext, he⟩ := addMissing_extends m x
      exact ⟨ext, by rw [← h, he]⟩
  | PyExpr.boolOp op vs, m, m', h => by
      simp only [visit] at h
      exact visitList_extends vs m m' h
  | PyExpr.binOp l op r, m, m', h => by
      simp only [visit] at h
      cases hl : visit m l <;> simp [hl] at h
  | PyExpr.unaryOp op e, m, m', h => by
      simp only [visit] at h
      cases hop : unaryOpAllowed op <;> simp [hop] at h
      exact visit_extends e m m' h
  | PyExpr.compare l rest, m, m', h => by
      simp only [visit] at h
      cases hl : visit m l with
      | error s => simp [hl] at h
      | ok m1 =>
          simp only [hl] at h
          obtain ⟨e1, h1⟩ := visit_extends l m m1 hl
          obtain ⟨e2, h2⟩ := visitCmp_extends rest m1 m' h
          exact ⟨e1 ++ e2, by rw [h2, h1, List.append_assoc]⟩
  | PyExpr.const c, m, m', h => by
      simp only [visit, Except.ok.injEq] at h
      exact ⟨[], by rw [← h]; simp⟩
  | PyExpr.subscript v i, m, m', h => by
      simp only [visit] at h
      cases hv : visit m v with
      | error s => simp [hv] at h
      | ok m1 =>
          simp only [hv] at h
          obtain ⟨e1, h1⟩ := visit_extends v m m1 hv
          obtain ⟨e2, h2⟩ := visit_extends i m1 m' h
          exact ⟨e1 ++ e2, by rw [h2, h1, List.append_assoc]⟩
  | PyExpr.listE es, m, m', h => by
      simp only [visit] at h
      exact visitList_extends es m m' h
  | PyExpr.tupleE es, m, m', h => by
      simp only [visit] at h
      exact visitList_extends es m m' h
  | PyExpr.dictE ps, m, m', h => by
      simp only [visit] at h
      exact visitPairs_extends ps m m' h
  | PyExpr.call f args, m, m', h => by
      simp [visit] at h
  | PyExpr.attributeE v a, m, m', h => by
      simp [visit] at h

theorem visitList_extends :
    ∀ (l : List PyExpr) (m m' : AttrMap), visitList m l = Except.ok m' → ∃ ext, m' = m ++ ext
  | [], m, m', h => by
      simp only [visitList, Except.ok.injEq] at h
      exact ⟨[], by rw [← h]; simp⟩
  | e :: rest, m, m', h => by
      simp only [visitList] at h
      cases he : visit m e with
      | error s => simp [he] at h
      | ok m1 =>
          simp only [he] at h
          obtain ⟨e1, h1⟩ := visit_extends e m m1 he
          obtain ⟨e2, h2⟩ := visitList_extends rest m1 m' h
          exact ⟨e1 ++ e2, by rw [h2, h1, List.append_assoc]⟩

theorem visitCmp_extends :
    ∀ (l : List (CmpOpKind × PyExpr)) (m m' : AttrMap),
      visitCmp m l = Except.ok m' → ∃ ext, m' = m ++ ext
  | [], m, m', h => by
      simp only [visitCmp, Except.ok.injEq] at h
      exact ⟨[], by rw [← h]; simp⟩
  | (op, e) :: rest, m, m', h => by
      simp only [visitCmp] at h
      cases hop : cmpOpAllowed op with
      | false => simp [hop] at h
      | true =>
          simp only [hop] at h
          simp only [if_true] at h
          cases he : visit m e with
          | error s => simp [he] at h
          | ok m1 =>
              simp only [he] at h
              obtain ⟨e1, h1⟩ := visit_extends e m m1 he
              obtain ⟨e2, h2⟩ := visitCmp_extends rest m1 m' h
              exact ⟨e1 ++ e2, by rw [h2, h1, List.append_assoc]⟩

theorem visitPairs_extends :
    ∀ (l : List (PyExpr × PyExpr)) (m m' : AttrMap),
      visitPairs m l = Except.ok m' → ∃ ext, m' = m ++ ext
  | [], m, m', h => by
      simp only [visitPairs, Except.ok.injEq] at h
      exact ⟨[], by rw [← h]; simp⟩
  | (k, v) :: rest, m, m', h => by
      simp only [visitPairs] at h
      cases hk : visit m k with
      | error s => simp [hk] at h
      | ok m1 =>
          simp only [hk] at h
          cases hv : visit m1 v with
          | error s => simp [hv] at h
          | ok m2 =>
              simp only [hv] at h
              obtain ⟨e1, h1⟩ := visit_extends k m m1 hk
              obtain ⟨e2, h2⟩ := visit_extends v m1 m2 hv
              obtain ⟨e3, h3⟩ := visitPairs_extends rest m2 m' h
              exact ⟨e1 ++ (e2 ++ e3), by
                rw [h3, h2, h1, List.append_assoc, List.append_assoc]⟩

end

/-! A tree containing a node outside ALLOWED_NODES never passes the
visit pass: the pass raises on some node, whatever the working copy
holds.  This is the allow-list guarantee behind claim C2. -/

mutual

theorem visit_hasBad :
    ∀ (t : PyExpr) (m : AttrMap), hasBad t = true → ∃ s, visit m t = Except.error s
  | PyExpr.name x, m, h => by simp [hasBad] at h
  | PyExpr.boolOp op vs, m, h => by
      simp only [hasBad] at h
      simpa only [visit] using visitList_hasBad vs m h
  | PyExpr.binOp l op r, m, h => by
      cases hl : visit m l with
      | error s => exact ⟨s, by simp only [visit, hl]⟩
      | ok m1 =>
          exact ⟨"Disallowed expression: " ++ binOpName op, by simp only [visit, hl]⟩
  | PyExpr.unaryOp op e, m, h => by
      simp only [hasBad, Bool.or_eq_true, Bool.not_eq_true'] at h
      cases hop : unaryOpAllowed op with
      | false =>
          exact ⟨"Disallowed expression: " ++ unaryOpName op, by simp [visit, hop]⟩
      | true =>
          rcases h with h | h
          · rw [hop] at h; exact absurd h (by simp)
          · obtain ⟨s, hs⟩ := visit_hasBad e m h
            exact ⟨s, by simp only [visit, hop, if_true, hs]⟩
  | PyExpr.compare l rest, m, h => by
      simp only [hasBad, Bool.or_eq_true] at h
      cases hl : visit m l with
      | error s => exact ⟨s, by simp only [visit, hl]⟩
      | ok m1 =>
          rcases h with h | h
          · obtain ⟨s, hs⟩ := visit_hasBad l m h
            rw [hl] at hs
            exact absurd hs (by simp)
          · obtain ⟨s, hs⟩ := visitCmp_hasBad rest m1 h
            exact ⟨s, by simp only [visit, hl, hs]⟩
  | PyExpr.const c, m, h => by simp [hasBad] at h
  | PyExpr.subscript v i, m, h => by
      simp only [hasBad, Bool.or_eq_true] at h
      cases hv : visit m v with
      | error s => exact ⟨s, by simp only [visit, hv]⟩
      | ok m1 =>
          rcases h with h | h
          · obtain ⟨s, hs⟩ := visit_hasBad v m h
            rw [hv] at hs
            exact absurd hs (by simp)
          · obtain ⟨s, hs⟩ := visit_hasBad i m1 h
            exact ⟨s, by simp only [visit, hv, hs]⟩
  | PyExpr.listE es, m, h => by
      simp only [hasBad] at h
      simpa only [visit] using visitList_hasBad es m h
  | PyExpr.tupleE es, m, h => by
      simp only [hasBad] at h
      simpa only [visit] using visitList_hasBad es m h
  | PyExpr.dictE ps, m, h => by
      simp only [hasBad] at h
      simpa only [visit] using visitPairs_hasBad ps m h
  | PyExpr.call f args, m, h =>
      ⟨"Disallowed expression: Call", by simp only [visit]⟩
  | PyExpr.attributeE v a, m, h =>
      ⟨"Disallowed expression: Attribute", by simp only [visit]⟩

theorem visitList_hasBad :
    ∀ (l : List PyExpr) (m : AttrMap),
      hasBadList l = true → ∃ s, visitList m l = Except.error s
  | [], m, h => by simp [hasBadList] at h
  | e :: rest, m, h => by
      simp only [hasBadList, Bool.or_eq_true] at h
      cases he : visit m e with
      | error s => exact ⟨s, by simp only [visitList, he]⟩
      | ok m1 =>
          rcases h with h | h
          · obtain ⟨s, hs⟩ := visit_hasBad e m h
            rw [he] at hs
            exact absurd hs (by simp)
          · obtain ⟨s, hs⟩ := visitList_hasBad rest m1 h
            exact ⟨s, by simp only [visitList, he, hs]⟩

theorem visitCmp_hasBad :
    ∀ (l : List (CmpOpKind × PyExpr)) (m : AttrMap),
      hasBadCmp l = true → ∃ s, visitCmp m l = Except.error s
  | [], m, h => by simp [hasBadCmp] at h
  | (op, e) :: rest, m, h => by
      simp only [hasBadCmp, Bool.or_eq_true, Bool.not_eq_true'] at h
      cases hop : cmpOpAllowed op with
      | false =>
          exact ⟨"Disallowed expression: " ++ cmpOpName op, by simp [visitCmp, hop]⟩
      | true =>
          cases he : visit m e with
          | error s => exact ⟨s, by simp only [visitCmp, hop, if_true, he]⟩
          | ok m1 =>
              rcases h with (h | h) | h
              · rw [hop] at h; exact absurd h (by simp)
              · obtain ⟨s, hs⟩ := visit_hasBad e m h
                rw [he] at hs
                exact absurd hs (by simp)
              · obtain ⟨s, hs⟩ := visitCmp_hasBad rest m1 h
                exact ⟨s, by simp only [visitCmp, hop, if_true, he, hs]⟩

theorem visitPairs_hasBad :
    ∀ (l : List (PyExpr × PyExpr)) (m : AttrMap),
      hasBadPairs l = true → ∃ s, visitPairs m l = Except.error s
  | [], m, h => by simp [hasBadPairs] at h
  | (k, v) :: rest, m, h => by
      simp only [hasBadPairs, Bool.or_eq_true] at h
      cases hk : visit m k with
      | error s => exact ⟨s, by simp only [visitPairs, hk]⟩
      | ok m1 =>
          cases hv : visit m1 v with
          | error s => exact ⟨s, by simp only [visitPairs, hk, hv]⟩
          | ok m2 =>
              rcases h with (h | h) | h
              · obtain ⟨s, hs⟩ := visit_hasBad k m h
                rw [hk] at hs
                exact absurd hs (by simp)
              · obtain ⟨s, hs⟩ := visit_hasBad v m1 h
                rw [hv] at hs
                exact absurd hs (by simp)
              · obtain ⟨s, hs⟩ := visitPairs_hasBad rest m2 h
                exact ⟨s, by simp only [visitPairs, hk, hv, hs]⟩

end

/-- A true result can come only from a successful pipeline run: for a
non-blank expression, eval_attr_logic returns true only when the tree
was parsed, passed the visit pass, and evaluated to a truthy value. -/
theorem eval_true_characterization (e : String) (p : Option PyExpr) (a : AttrMap)
    (hne : isBlank e = false) (ht : eval_attr_logic e p a = true) :
    ∃ t m' v, p = some t ∧ visit a t = Except.ok m' ∧
      evalExpr a t = Except.ok v ∧ truthy v = true := by
  cases p with
  | none => simp [eval_attr_logic, hne] at ht
  | some t =>
      cases hv : visit a t with
      | error s => simp [eval_attr_logic, hne, hv] at ht
      | ok m' =>
          cases he : evalExpr a t with
          | error s => simp [eval_attr_logic, hne, hv, he] at ht
          | ok v =>
              refine ⟨t, m', v, rfl, hv, he, ?_⟩
              simp [eval_attr_logic, hne, hv, he] at ht
              exact ht

/-- dict.get on an object body never raises: it returns the stored
value or null. -/
theorem jGet_obj (fs : List (String × JVal)) (k : String) :
    jGet (JVal.obj fs) k = Except.ok ((jLookup fs k).getD JVal.null) := by
  cases h : jLookup fs k <;> simp [jGet, h]

/-! ## Claims -/

/-- Claim C1: fail-closed invariant of the public entry point.  For a
non-empty (non-blank) expression: a parse failure, a visit-pass
failure, and an evaluation error each make eval_attr_logic return
false, and a true result is possible only through a successful
evaluation of the parsed tree.  (The embedding is a total Bool-valued
function, so no exception escapes the public boundary by type.) -/
theorem c1_fail_closed (e : String) (p : Option PyExpr) (a : AttrMap)
    (hne : isBlank e = false) :
    (p = Option.none → eval_attr_logic e p a = false) ∧
    (∀ t s, p = some t → visit a t = Except.error s → eval_attr_logic e p a = false) ∧
    (∀ t m' s, p = some t → visit a t = Except.ok m' → evalExpr a t = Except.error s →
      eval_attr_logic e p a = false) ∧
    (eval_attr_logic e p a = true →
      ∃ t m' v, p = some t ∧ visit a t = Except.ok m' ∧
        evalExpr a t = Except.ok v ∧ truthy v = true) := by
  refine ⟨?_, ?_, ?_, ?_⟩
  · intro hp
    simp [eval_attr_logic, hne, hp]
  · intro t s hp hv
    simp [eval_attr_logic, hne, hp, hv]
  · intro t m' s hp hv he
    simp [eval_attr_logic, hne, hp, hv, he]
  · exact eval_true_characterization e p a hne

theorem c1_fail_closed_witness : eval_attr_logic "(" Option.none [] = false :=
  (c1_fail_closed "(" Option.none [] (by decide)).1 rfl

/-- Claim C2: an expression containing any syntax node outside the
allow-list is rejected: the visit pass raises, so eval_attr_logic
returns false without evaluating the tree.  In particular a constant
arithmetic node (an addition of two number literals) is such a node,
because no arithmetic operator class is in ALLOWED_NODES. -/
theorem c2_disallowed_rejected :
    (∀ (e : String) (p : Option PyExpr) (a : AttrMap) (t : PyExpr),
      isBlank e = false → p = some t → hasBad t = true →
        eval_attr_logic e p a = false) ∧
    (∀ (n1 n2 : Int),
      hasBad (PyExpr.binOp (PyExpr.const (PyConst.int n1)) BinOpKind.add
        (PyExpr.const (PyConst.int n2))) = true) := by
  constructor
  · intro e p a t hne hp hbad
    obtain ⟨s, hs⟩ := visit_hasBad t a hbad
    simp [eval_attr_logic, hne, hp, hs]
  · intro n1 n2
    simp [hasBad]

theorem c2_disallowed_rejected_witness :
    eval_attr_logic "1 + 2"
      (some (PyExpr.binOp (PyExpr.const (PyConst.int 1)) BinOpKind.add
        (PyExpr.const (PyConst.int 2)))) [] = false :=
  c2_disallowed_rejected.1 "1 + 2" _ [] _ (by decide) rfl (by simp [hasBad])

/-- Claim C3: an empty or whitespace-only expression makes
eval_attr_logic return true for every attribute mapping, and this
blank path is the only non-error path whose result does not come from
evaluating a parsed tree: any other true result comes from a
successful evaluation. -/
theorem c3_blank_allows :
    (∀ (p : Option PyExpr) (a : AttrMap), eval_attr_logic "" p a = true) ∧
    (∀ (p : Option PyExpr) (a : AttrMap), eval_attr_logic " \t\n\r " p a = true) ∧
    (∀ (e : String) (p : Option PyExpr) (a : AttrMap),
      isBlank e = true → eval_attr_logic e p a = true) ∧
    (∀ (e : String) (p : Option PyExpr) (a : AttrMap),
      isBlank e = false → eval_attr_logic e p a = true →
      ∃ t m' v, p = some t ∧ visit a t = Except.ok m' ∧
        evalExpr a t = Except.ok v ∧ truthy v = true) := by
  refine ⟨?_, ?_, ?_, ?_⟩
  · intro p a
    simp [eval_attr_logic, isBlank]
  · intro p a
    have hb : isBlank " \t\n\r " = true := by decide
    simp [eval_attr_logic, hb]
  · intro e p a hb
    simp [eval_attr_logic, hb]
  · exact eval_true_characterization

theorem c3_blank_allows_witness : eval_attr_logic "   " Option.none [("k", Value.int 7)] = true :=
  c3_blank_allows.2.2.1 "   " Option.none [("k", Value.int 7)] (by decide)

/-- Claim C4: a variable name absent from the attribute mapping
evaluates to None without raising (names always evaluate, to the
SafeAttrs lookup of the mapping), None is falsy, and in particular
the policy consisting of the bare name missing_key evaluates to false
on the empty mapping. -/
theorem c4_missing_names_null :
    (∀ (a : AttrMap) (x : String), attrFind a x = Option.none →
      evalExpr a (PyExpr.name x) = Except.ok Value.none) ∧
    (∀ (a : AttrMap) (x : String),
      evalExpr a (PyExpr.name x) = Except.ok (safeLookup a x)) ∧
    truthy Value.none = false ∧
    eval_attr_logic "missing_key" (some (PyExpr.name "missing_key")) [] = false := by
  refine ⟨?_, ?_, rfl, ?_⟩
  · intro a x hfind
    simp [evalExpr, safeLookup, hfind]
  · intro a x
    simp [evalExpr]
  · decide

theorem c4_missing_names_null_witness :
    evalExpr [] (PyExpr.name "missing_key") = Except.ok Value.none :=
  c4_missing_names_null.1 [] "missing_key" rfl

/-- Claim C5: an ordering comparison whose evaluated operands the host
cannot order raises an evaluation error (int against str in either
direction is such a pair), and the wrapper converts that error to
false; in particular the policy comparing the int attribute level
against a string literal with GtE returns false. -/
theorem c5_unorderable_denied :
    (∀ (n : Int) (s : String),
      (∃ e1, cmpVal (Value.int n) (Value.str s) = Except.error e1) ∧
      (∃ e2, cmpVal (Value.str s) (Value.int n) = Except.error e2)) ∧
    (∀ (e : String) (a : AttrMap) (l r : PyExpr) (op : CmpOpKind)
        (x y : Value) (err : String),
      isBlank e = false → ordOp op = true →
      evalExpr a l = Except.ok x → evalExpr a r = Except.ok y →
      cmpVal x y = Except.error err →
      eval_attr_logic e (some (PyExpr.compare l [(op, r)])) a = false) ∧
    eval_attr_logic "level >= \"not-a-number\""
      (some (PyExpr.compare (PyExpr.name "level")
        [(CmpOpKind.gtE, PyExpr.const (PyConst.str "not-a-number"))]))
      [("level", Value.int 3)] = false := by
  refine ⟨?_, ?_, ?_⟩
  · intro n s
    refine ⟨⟨"ordering not supported between instances of " ++
      typeName (Value.int n) ++ " and " ++ typeName (Value.str s), by simp [cmpVal]⟩,
      ⟨"ordering not supported between instances of " ++
      typeName (Value.str s) ++ " and " ++ typeName (Value.int n), by simp [cmpVal]⟩⟩
  · intro e a l r op x y err hne hop hl hr hcmp
    have he : evalExpr a (PyExpr.compare l [(op, r)]) = Except.error err := by
      simp only [evalExpr, hl, evalCmpChain, hr]
      cases op <;> simp [ordOp] at hop <;> simp [applyCmp, hcmp]
    cases hv : visit a (PyExpr.compare l [(op, r)]) with
    | error s => simp [eval_attr_logic, hne, hv]
    | ok m' => simp [eval_attr_logic, hne, hv, he]
  · decide

theorem c5_unorderable_denied_witness :
    eval_attr_logic "level >= \"not-a-number\""
      (some (PyExpr.compare (PyExpr.name "level")
        [(CmpOpKind.gtE, PyExpr.const (PyConst.str "not-a-number"))]))
      [("level", Value.int 3)] = false :=
  c5_unorderable_denied.2.1 "level >= \"not-a-number\"" [("level", Value.int 3)]
    (PyExpr.name "level") (PyExpr.const (PyConst.str "not-a-number"))
    CmpOpKind.gtE (Value.int 3) (Value.str "not-a-number")
    ("ordering not supported between instances of " ++
      typeName (Value.int 3) ++ " and " ++ typeName (Value.str "not-a-number"))
    (by decide) rfl (by simp [evalExpr, safeLookup, attrFind]) (by simp [evalExpr, constVal])
    (by simp [cmpVal])

/-- Claim C6 counterexample: on a string right operand the host
membership operator is substring containment, not element presence,
and it does not raise even though a string is not a collection in the
data model of the spec: the substring ad of badge is not equal to any
single-character element of badge, yet the membership test succeeds
with true and the policy returns true instead of the false that an
evaluation error would produce. -/
theorem c6_membership_counterexample :
    pyEq (Value.str "ad") (Value.str "b") = false ∧
    pyEq (Value.str "ad") (Value.str "a") = false ∧
    pyEq (Value.str "ad") (Value.str "d") = false ∧
    pyEq (Value.str "ad") (Value.str "g") = false ∧
    pyEq (Value.str "ad") (Value.str "e") = false ∧
    pyIn (Value.str "ad") (Value.str "badge") = Except.ok true ∧
    eval_attr_logic "\"ad\" in word"
      (some (PyExpr.compare (PyExpr.const (PyConst.str "ad"))
        [(CmpOpKind.in_, PyExpr.name "word")]))
      [("word", Value.str "badge")] = true := by
  refine ⟨?_, ?_, ?_, ?_, ?_, rfl, ?_⟩ <;>
    simp [eval_attr_logic, isBlank, isPySpace, pySpaceCodes, visit, visitCmp,
      cmpOpAllowed, constVal, addMissing, attrFind, evalExpr, evalCmpChain,
      applyCmp, pyIn, pyEq, strContains, subSearch, safeLookup, truthy]

/-- Claim C6 as amended: membership on a list or tuple right operand
tests element presence with equality; on a dict right operand the
host hashes the left operand first, so a hashable left operand tests
key presence with equality and an unhashable one (a list or dict)
raises an evaluation error; on a string right operand membership is
substring containment (raising when the left operand is not a
string); on every other right operand (None, number, boolean)
evaluation raises an evaluation error; every such evaluation error is
converted to false by the wrapper, as the policy testing the empty
list against a dict shows concretely, and the example policy testing
the string admin against the roles list returns true. -/
theorem c6_membership :
    (∀ (x : Value) (ys : List Value),
      (pyIn x (Value.list ys) = Except.ok true ↔ ∃ y ∈ ys, pyEq x y = true)) ∧
    (∀ (x : Value) (ys : List Value),
      (pyIn x (Value.tuple ys) = Except.ok true ↔ ∃ y ∈ ys, pyEq x y = true)) ∧
    (∀ (x : Value) (es : List (Value × Value)), hashable x = true →
      (pyIn x (Value.dict es) = Except.ok true ↔ ∃ kv ∈ es, pyEq kv.1 x = true)) ∧
    (∀ (x : Value) (es : List (Value × Value)), hashable x = false →
      ∃ s, pyIn x (Value.dict es) = Except.error s) ∧
    (∀ x, ∃ s, pyIn x Value.none = Except.error s) ∧
    (∀ x (n : Int), ∃ s, pyIn x (Value.int n) = Except.error s) ∧
    (∀ x (b : Bool), ∃ s, pyIn x (Value.bool b) = Except.error s) ∧
    (∀ (s sub : String),
      pyIn (Value.str sub) (Value.str s) = Except.ok (strContains s sub)) ∧
    (∀ (s : String) (n : Int), ∃ er, pyIn (Value.int n) (Value.str s) = Except.error er) ∧
    (∀ (e : String) (a : AttrMap) (l r : PyExpr) (x y : Value) (err : String),
      isBlank e = false →
      evalExpr a l = Except.ok x → evalExpr a r = Except.ok y →
      pyIn x y = Except.error err →
      eval_attr_logic e (some (PyExpr.compare l [(CmpOpKind.in_, r)])) a = false) ∧
    eval_attr_logic "[] not in d"
      (some (PyExpr.compare (PyExpr.listE [])
        [(CmpOpKind.notIn, PyExpr.name "d")]))
      [("d", Value.dict [(Value.int 1, Value.int 2)])] = false ∧
    eval_attr_logic "\"admin\" in roles"
      (some (PyExpr.compare (PyExpr.const (PyConst.str "admin"))
        [(CmpOpKind.in_, PyExpr.name "roles")]))
      [("roles", Value.list [Value.str "user", Value.str "admin"])] = true := by
  refine ⟨?_, ?_, ?_, ?_, ?_, ?_, ?_, ?_, ?_, ?_, ?_, ?_⟩
  · intro x ys
    simp [pyIn, List.any_eq_true]
  · intro x ys
    simp [pyIn, List.any_eq_true]
  · intro x es hx
    simp [pyIn, hx, List.any_eq_true]
  · intro x es hx
    exact ⟨"unhashable type: " ++ typeName x, by simp [pyIn, hx]⟩
  · intro x
    exact ⟨"argument of type " ++ typeName Value.none ++ " is not iterable", by simp [pyIn]⟩
  · intro x n
    exact ⟨"argument of type " ++ typeName (Value.int n) ++ " is not iterable", by simp [pyIn]⟩
  · intro x b
    exact ⟨"argument of type " ++ typeName (Value.bool b) ++ " is not iterable", by simp [pyIn]⟩
  · intro s sub
    simp [pyIn]
  · intro s n
    exact ⟨"in string requires string as left operand, not " ++ typeName (Value.int n),
      by simp [pyIn]⟩
  · intro e a l r x y err hne hl hr hin
    have he : evalExpr a (PyExpr.compare l [(CmpOpKind.in_, r)]) = Except.error err := by
      simp only [evalExpr, hl, evalCmpChain, hr, applyCmp, hin]
    cases hv : visit a (PyExpr.compare l [(CmpOpKind.in_, r)]) with
    | error s => simp [eval_attr_logic, hne, hv]
    | ok m' => simp [eval_attr_logic, hne, hv, he]
  · simp [eval_attr_logic, isBlank, isPySpace, pySpaceCodes, visit, visitCmp, visitList,
      cmpOpAllowed, constVal, addMissing, attrFind, evalExpr, evalList, evalCmpChain,
      applyCmp, pyIn, hashable, pyEq, safeLookup, truthy]
  · simp [eval_attr_logic, isBlank, isPySpace, pySpaceCodes, visit, visitCmp,
      cmpOpAllowed, constVal, addMissing, attrFind, evalExpr, evalCmpChain,
      applyCmp, pyIn, pyEq, safeLookup, truthy]

theorem c6_membership_witness :
    eval_attr_logic "3 in limit"
      (some (PyExpr.compare (PyExpr.const (PyConst.int 3))
        [(CmpOpKind.in_, PyExpr.name "limit")]))
      [("limit", Value.int 10)] = false :=
  c6_membership.2.2.2.2.2.2.2.2.2.1 "3 in limit" [("limit", Value.int 10)]
    (PyExpr.const (PyConst.int 3)) (PyExpr.name "limit")
    (Value.int 3) (Value.int 10)
    ("argument of type " ++ typeName (Value.int 10) ++ " is not iterable")
    (by decide) (by simp [evalExpr, constVal]) (by simp [evalExpr, safeLookup, attrFind])
    (by simp [pyIn])

/-- Claim C7: on a successful evaluation the wrapper returns the
Python truthiness of the evaluated result, and truthiness follows the
host falsy rules: None, False, zero, the empty string and empty
collections are false, everything else true. -/
theorem c7_truthiness :
    (∀ (e : String) (p : Option PyExpr) (a : AttrMap) (t : PyExpr) (m' : AttrMap) (v : Value),
      isBlank e = false → p = some t → visit a t = Except.ok m' →
      evalExpr a t = Except.ok v → eval_attr_logic e p a = truthy v) ∧
    truthy Value.none = false ∧
    (∀ b, truthy (Value.bool b) = b) ∧
    (∀ n : Int, truthy (Value.int n) = true ↔ n ≠ 0) ∧
    (∀ s : String, truthy (Value.str s) = true ↔ s ≠ "") ∧
    (∀ xs : List Value, truthy (Value.list xs) = true ↔ xs ≠ []) ∧
    (∀ xs : List Value, truthy (Value.tuple xs) = true ↔ xs ≠ []) ∧
    (∀ es : List (Value × Value), truthy (Value.dict es) = true ↔ es ≠ []) := by
  refine ⟨?_, rfl, fun b => rfl, ?_, ?_, ?_, ?_, ?_⟩
  · intro e p a t m' v hne hp hv he
    simp [eval_attr_logic, hne, hp, hv, he]
  · intro n
    simp [truthy]
  · intro s
    simp [truthy]
  · intro xs
    simp [truthy]
  · intro xs
    simp [truthy]
  · intro es
    simp [truthy]

theorem c7_truthiness_witness :
    eval_attr_logic "flag" (some (PyExpr.name "flag")) [("flag", Value.int 5)] =
      truthy (Value.int 5) :=
  c7_truthiness.1 "flag" (some (PyExpr.name "flag")) [("flag", Value.int 5)]
    (PyExpr.name "flag") [("flag", Value.int 5)] (Value.int 5)
    (by decide) rfl (by simp [visit, addMissing, attrFind])
    (by simp [evalExpr, safeLookup, attrFind])

/-- Claim C8: frame condition.  In the heap-explicit embedding, every
call returns the caller attribute mapping unchanged while computing
the same result as eval_attr_logic, and the defaulting the visit pass
performs on its private copy only appends entries: every binding
present in the copy before the pass is still there, unchanged,
afterwards. -/
theorem c8_frame :
    (∀ (e : String) (p : Option PyExpr) (a : AttrMap),
      (eval_attr_logic_heap e p a).2 = a) ∧
    (∀ (e : String) (p : Option PyExpr) (a : AttrMap),
      (eval_attr_logic_heap e p a).1 = eval_attr_logic e p a) ∧
    (∀ (t : PyExpr) (m m' : AttrMap) (k : String) (v : Value),
      visit m t = Except.ok m' → attrFind m k = some v → attrFind m' k = some v) := by
  refine ⟨?_, ?_, ?_⟩
  · intro e p a
    cases hb : isBlank e with
    | true => simp [eval_attr_logic_heap, hb]
    | false =>
        cases p with
        | none => simp [eval_attr_logic_heap, hb]
        | some t =>
            cases hv : visit a t with
            | error s => simp [eval_attr_logic_heap, hb, hv]
            | ok m' =>
                cases he : evalExpr a t with
                | error s => simp [eval_attr_logic_heap, hb, hv, he]
                | ok v => simp [eval_attr_logic_heap, hb, hv, he]
  · intro e p a
    cases hb : isBlank e with
    | true => simp [eval_attr_logic_heap, eval_attr_logic, hb]
    | false =>
        cases p with
        | none => simp [eval_attr_logic_heap, eval_attr_logic, hb]
        | some t =>
            cases hv : visit a t with
            | error s => simp [eval_attr_logic_heap, eval_attr_logic, hb, hv]
            | ok m' =>
                cases he : evalExpr a t with
                | error s => simp [eval_attr_logic_heap, eval_attr_logic, hb, hv, he]
                | ok v => simp [eval_attr_logic_heap, eval_attr_logic, hb, hv, he]
  · intro t m m' k v hvis hfind
    obtain ⟨ext, hext⟩ := visit_extends t m m' hvis
    rw [hext]
    exact attrFind_append_some m ext k v hfind

theorem c8_frame_witness :
    attrFind [("a", Value.int 1), ("x", Value.none)] "a" = some (Value.int 1) :=
  c8_frame.2.2 (PyExpr.name "x") [("a", Value.int 1)]
    [("a", Value.int 1), ("x", Value.none)] "a" (Value.int 1)
    (by simp [visit, addMissing, attrFind]) (by simp [attrFind])

/-- Claim C9 counterexample: the claim says a response whose required
fields are missing fails with an unavailable error; but on a
well-configured world whose body is the empty JSON object (so both
required fields are absent), the function succeeds with the defaulted
pair instead of failing: data.get(...) or default replaces a missing
or falsy field with an empty dict resp. list before the isinstance
check. -/
theorem c9_provider_counterexample :
    jLookup ([] : List (String × JVal)) "attributes" = Option.none ∧
    jLookup ([] : List (String × JVal)) "active_attempt_task_ids" = Option.none ∧
    get_lms_ctfd_data_for_email "user@example.com"
      { lms_base_url := some "http://lms", lms_ctfd_token := some "token",
        httpResult := Except.ok { status_code := 200, body := some (JVal.obj []) } } =
      Except.ok { attributes := JVal.obj [], active_attempt_task_ids := JVal.arr [] } :=
  ⟨rfl, rfl, rfl⟩

/-- Claim C9 as amended: the fetch fails with an unavailable error
exactly when the configuration is missing or empty, the request
raises, the status is not 200, or the body is undecodable JSON, or the
decoded object carries a required field that is truthy but not of the
required type; a missing or falsy field is instead normalized to an
empty dict resp. list, and a decoded body that is not an object
raises an uncaught host AttributeError.  Otherwise the normalized
pair is returned. -/
theorem c9_provider_amended (email : String) (w : LMSWorld) :
    ((optFalsy w.lms_base_url || optFalsy w.lms_ctfd_token) = true →
      get_lms_ctfd_data_for_email email w =
        Except.error (LMSErr.unavailable "LMS is not configured (LMS_BASE_URL/LMS_CTFD_TOKEN)")) ∧
    (∀ e, (optFalsy w.lms_base_url || optFalsy w.lms_ctfd_token) = false →
      w.httpResult = Except.error e →
      get_lms_ctfd_data_for_email email w = Except.error (LMSErr.unavailable e)) ∧
    (∀ resp, (optFalsy w.lms_base_url || optFalsy w.lms_ctfd_token) = false →
      w.httpResult = Except.ok resp → resp.status_code ≠ 200 →
      get_lms_ctfd_data_for_email email w =
        Except.error (LMSErr.unavailable ("LMS returned " ++ toString resp.status_code))) ∧
    (∀ resp, (optFalsy w.lms_base_url || optFalsy w.lms_ctfd_token) = false →
      w.httpResult = Except.ok resp → resp.status_code = 200 → resp.body = Option.none →
      get_lms_ctfd_data_for_email email w =
        Except.error (LMSErr.unavailable "Invalid LMS JSON")) ∧
    (∀ resp d, (optFalsy w.lms_base_url || optFalsy w.lms_ctfd_token) = false →
      w.httpResult = Except.ok resp → resp.status_code = 200 → resp.body = some d →
      isObj d = false →
      ∃ s, get_lms_ctfd_data_for_email email w = Except.error (LMSErr.hostError s)) ∧
    (∀ resp fs, (optFalsy w.lms_base_url || optFalsy w.lms_ctfd_token) = false →
      w.httpResult = Except.ok resp → resp.status_code = 200 →
      resp.body = some (JVal.obj fs) →
      ((isObj (normField fs "attributes" (JVal.obj [])) = false ∨
        isArr (normField fs "active_attempt_task_ids" (JVal.arr [])) = false) →
        get_lms_ctfd_data_for_email email w =
          Except.error (LMSErr.unavailable "Invalid LMS payload structure")) ∧
      (isObj (normField fs "attributes" (JVal.obj [])) = true →
       isArr (normField fs "active_attempt_task_ids" (JVal.arr [])) = true →
        get_lms_ctfd_data_for_email email w =
          Except.ok { attributes := normField fs "attributes" (JVal.obj []),
                      active_attempt_task_ids :=
                        normField fs "active_attempt_task_ids" (JVal.arr []) })) := by
  refine ⟨?_, ?_, ?_, ?_, ?_, ?_⟩
  · intro hcfg
    simp [get_lms_ctfd_data_for_email, hcfg]
  · intro e hcfg hreq
    simp [get_lms_ctfd_data_for_email, hcfg, hreq]
  · intro resp hcfg hreq hst
    simp [get_lms_ctfd_data_for_email, hcfg, hreq, hst]
  · intro resp hcfg hreq hst hbody
    simp [get_lms_ctfd_data_for_email, hcfg, hreq, hst, hbody]
  · intro resp d hcfg hreq hst hbody hobj
    cases d <;> simp_all [get_lms_ctfd_data_for_email, isObj, jGet]
  · intro resp fs hcfg hreq hst hbody
    constructor
    · intro h
      simp only [normField, Option.getD] at h
      simp only [get_lms_ctfd_data_for_email, hcfg, hreq, hst, hbody, jGet_obj,
        Option.getD]
      rcases h with h | h <;> simp [h]
    · intro h1 h2
      simp only [normField, Option.getD] at h1 h2
      simp only [get_lms_ctfd_data_for_email, hcfg, hreq, hst, hbody, jGet_obj,
        Option.getD, normField]
      simp [h1, h2]

theorem c9_provider_amended_witness :
    get_lms_ctfd_data_for_email "user@example.com"
      { lms_base_url := Option.none, lms_ctfd_token := some "token",
        httpResult := Except.error "unreachable" } =
      Except.error (LMSErr.unavailable "LMS is not configured (LMS_BASE_URL/LMS_CTFD_TOKEN)") :=
  (c9_provider_amended "user@example.com"
    { lms_base_url := Option.none, lms_ctfd_token := some "token",
      httpResult := Except.error "unreachable" }).1 rfl

/-- Claim C10: names resolve exclusively through the attribute
mapping: the evaluation of a Name node is exactly the SafeAttrs lookup
of the mapping (the globals carry an empty builtins table, so no host
builtin is consulted), an empty mapping resolves every name to None,
any single-name policy evaluates to the truthiness of the looked-up
attribute, and in particular the policy len on an empty mapping
returns false rather than resolving the host builtin len. -/
theorem c10_no_builtins :
    (∀ (a : AttrMap) (x : String),
      evalExpr a (PyExpr.name x) = Except.ok (safeLookup a x)) ∧
    (∀ x : String, safeLookup [] x = Value.none) ∧
    (∀ (e : String) (x : String) (a : AttrMap), isBlank e = false →
      eval_attr_logic e (some (PyExpr.name x)) a = truthy (safeLookup a x)) ∧
    eval_attr_logic "len" (some (PyExpr.name "len")) [] = false := by
  refine ⟨?_, ?_, ?_, ?_⟩
  · intro a x
    simp [evalExpr]
  · intro x
    simp [safeLookup, attrFind]
  · intro e x a hne
    simp [eval_attr_logic, hne, visit, evalExpr]
  · decide

theorem c10_no_builtins_witness :
    eval_attr_logic "len" (some (PyExpr.name "len")) [] = truthy (safeLookup [] "len") :=
  c10_no_builtins.2.2.1 "len" "len" [] (by decide)

end LMS
